import Mathlib

/-!
Verification of the cellularust simulation core (src/main.rs): grid
addressing, Moore-neighborhood counting, the rule engine with the default
Conway rule, the generation stepper, the seeder, and the snapshot history
with its keyboard navigation.  Every definition is a shallow embedding of
the corresponding Rust item; machine integers are modelled as `Nat`
(with explicit wrapping where the source wraps) and the `[bool; W*H]`
cell array is modelled as a natural number whose bit `i` is `cells[i]`.
-/

namespace Cellularust

/-- `const CELL_WIDTH: usize = 100`. -/
def CELL_WIDTH : Nat := 100

/-- `const CELL_HEIGHT: usize = 100`. -/
def CELL_HEIGHT : Nat := 100

/-- `const SNAPSHOT_LIMIT: usize = 10000`. -/
def SNAPSHOT_LIMIT : Nat := 10000

/-- `const SEED_BOUNDING_BOX: usize = (CELL_WIDTH + CELL_HEIGHT) / 2 / 5` (= 20). -/
def SEED_BOUNDING_BOX : Nat := (CELL_WIDTH + CELL_HEIGHT) / 2 / 5

/-- `usize` modulus: coordinates in the source are 64-bit unsigned integers. -/
def USIZE_MOD : Nat := 2 ^ 64

/-- `type CellGrid = [bool; CELL_WIDTH * CELL_HEIGHT]`, encoded as the natural
number whose bit `i` is the boolean `cells[i]`. -/
abbrev CellGrid : Type := Nat

/-- Array read `cells[i]`: bit `i` of the encoding. -/
def getCell (cells : CellGrid) (i : Nat) : Bool :=
  Nat.testBit cells i

/-- Array write `cells[i] = b`: sets bit `i` of the encoding to `b`
(toggling it with xor when it differs), leaving every other bit unchanged. -/
def setCell (cells : CellGrid) (i : Nat) (b : Bool) : CellGrid :=
  if getCell cells i = b then cells else cells ^^^ (1 <<< i)

/-- `struct CellState` (the per-cell observation handed to rules);
`neighbors_alive: u8` is modelled as `Nat` (its value never exceeds 8). -/
structure CellState where
  x : Nat
  y : Nat
  alive : Bool
  neighbors_alive : Nat
deriving Repr, DecidableEq

/-- `type CellRule = Box<dyn FnMut(&CellGrid, CellState) -> bool>`; the rules the
claims concern are stateless, so a rule is embedded as a pure function. -/
abbrev CellRule : Type := CellGrid → CellState → Bool

/-- `struct CellRules { rules: Vec<CellRule> }`: the ordered rule list. -/
abbrev CellRules : Type := List CellRule

/-- `fn get_x_y(i: usize) -> (usize, usize) { (i % CELL_WIDTH, i / CELL_HEIGHT) }`. -/
def get_x_y (i : Nat) : Nat × Nat :=
  (i % CELL_WIDTH, i / CELL_HEIGHT)

/-- `fn get_idx(x: usize, y: usize) -> usize { y * CELL_HEIGHT + x }`. -/
def get_idx (x y : Nat) : Nat :=
  y * CELL_HEIGHT + x

/-- The index pairs `(_x, _y)` visited by the nested loops
`for _x in -1..2 { for _y in -1..2 { ... } }`, in iteration order. -/
def moore_range : List (Int × Int) :=
  [(-1, -1), (-1, 0), (-1, 1), (0, -1), (0, 0), (0, 1), (1, -1), (1, 0), (1, 1)]

/-- The body of the neighbor loop up to the array read: for offset `(dx, dy)`
from cell `(x, y)` it skips the center, computes `x_m = _x + x`,
`y_m = _y + y` in signed arithmetic, and returns the probed array index
`get_idx(x_m as usize, y_m as usize)` when both coordinates are within
`[0, CELL_WIDTH) × [0, CELL_HEIGHT)`, and `none` otherwise. -/
def neighbor_probe (x y : Nat) (dx dy : Int) : Option Nat :=
  if ¬(dx = 0 ∧ dy = 0) then
    let x_m : Int := dx + (x : Int)
    let y_m : Int := dy + (y : Int)
    if 0 ≤ x_m ∧ x_m < (CELL_WIDTH : Int) ∧ 0 ≤ y_m ∧ y_m < (CELL_HEIGHT : Int) then
      some (get_idx x_m.toNat y_m.toNat)
    else
      none
  else
    none

/-- One neighbor-loop iteration of the `live_count` accumulation:
`if cells[idx] { live_count += 1; }` for an in-bounds probe, else no change. -/
def count_step (cells : CellGrid) (x y : Nat) (acc : Nat) (p : Int × Int) : Nat :=
  match neighbor_probe x y p.1 p.2 with
  | some idx => if getCell cells idx then acc + 1 else acc
  | none => acc

/-- The `live_count` computation of `cell_generation_tick` for cell `(x, y)`:
fold of the nested `-1..2` loops over the probed neighbors. -/
def live_neighbor_count (cells : CellGrid) (x y : Nat) : Nat :=
  moore_range.foldl (count_step cells x y) 0

/-- One neighbor-loop iteration recording which array index (if any) is read. -/
def idx_step (x y : Nat) (acc : List Nat) (p : Int × Int) : List Nat :=
  acc ++ (neighbor_probe x y p.1 p.2).toList

/-- The list of array indices read by the neighbor loop for cell `(x, y)`,
in iteration order. -/
def neighbor_idxs (x y : Nat) : List Nat :=
  moore_range.foldl (idx_step x y) []

/-- `fn conway_rules(_grid: &CellGrid, cell: CellState) -> bool`. -/
def conway_rules (_grid : CellGrid) (cell : CellState) : Bool :=
  if cell.alive && decide (cell.neighbors_alive > 3) then false
  else if cell.alive && decide (cell.neighbors_alive < 2) then false
  else if !cell.alive then
    if cell.neighbors_alive = 3 then true else cell.alive
  else
    cell.alive

/-- The body of the `for i in 0..cells.len()` loop of `cell_generation_tick`:
computes `(x, y)` and `live_count` from the CURRENT (partially overwritten)
array `cells`, folds the rule list over the observation, and stores the
result back into `cells[i]`. -/
def tick_cell_step (rules : CellRules) (cells : CellGrid) (i : Nat) : CellGrid :=
  let x := (get_x_y i).1
  let y := (get_x_y i).2
  let live_count := live_neighbor_count cells x y
  let state0 : CellState :=
    { x := x, y := y, alive := getCell cells i, neighbors_alive := live_count }
  let state := rules.foldl (fun st rule => { st with alive := rule cells st }) state0
  setCell cells i state.alive

/-- `fn cell_generation_tick(mut cells: CellGrid, rules: &mut CellRules) -> CellGrid`:
the by-value array is updated in place as `i` sweeps `0..cells.len()`. -/
def cell_generation_tick (cells : CellGrid) (rules : CellRules) : CellGrid :=
  (List.range (CELL_WIDTH * CELL_HEIGHT)).foldl (tick_cell_step rules) cells

/-- Modelled from the spec (§4.3 Generation Stepper): the per-cell step of the
simultaneous-update semantics, reading the neighbor count and alive flag for
cell `i` always from the fixed pre-step grid `cells` and writing the result
only into the output buffer `out`. -/
def spec_cell_step (cells : CellGrid) (rules : CellRules) (out : CellGrid) (i : Nat) : CellGrid :=
  let x := (get_x_y i).1
  let y := (get_x_y i).2
  let live_count := live_neighbor_count cells x y
  let state0 : CellState :=
    { x := x, y := y, alive := getCell cells i, neighbors_alive := live_count }
  let state := rules.foldl (fun st rule => { st with alive := rule cells st }) state0
  setCell out i state.alive

/-- Modelled from the spec (§4.3 Generation Stepper), for comparison with
`cell_generation_tick`: every cell's neighbor count and alive flag are read
from the single input grid `cells`; every index of the output buffer is
overwritten, and the grid being read is never mutated. -/
def tick_snapshot_spec (cells : CellGrid) (rules : CellRules) : CellGrid :=
  (List.range (CELL_WIDTH * CELL_HEIGHT)).foldl (spec_cell_step cells rules) cells

/-- `fn wrapping_sub` on `usize`: `a.wrapping_sub(b)` for `a, b < 2^64`. -/
def wrapping_sub (a b : Nat) : Nat :=
  (USIZE_MOD + a - b) % USIZE_MOD

/-- The seeding condition of `seed_cells`:
`(CELL_WIDTH / 2).wrapping_sub(x) < SEED_BOUNDING_BOX
  && (CELL_HEIGHT / 2).wrapping_sub(y) < SEED_BOUNDING_BOX`. -/
def in_seed_box (x y : Nat) : Bool :=
  decide (wrapping_sub (CELL_WIDTH / 2) x < SEED_BOUNDING_BOX) &&
    decide (wrapping_sub (CELL_HEIGHT / 2) y < SEED_BOUNDING_BOX)

/-- One iteration of the seeding loop.  The thread RNG is modelled as the
stream `rng : Nat → Bool` of successive `gen_bool(SEED_SPAWN_RATE)` outcomes;
the second accumulator component counts the draws consumed so far (so the
stream is consumed in loop order, one draw per in-box cell).  The all-true
stream models spawn probability 1, the all-false stream probability 0. -/
def seed_step (rng : Nat → Bool) (acc : CellGrid × Nat) (i : Nat) : CellGrid × Nat :=
  let x := (get_x_y i).1
  let y := (get_x_y i).2
  if in_seed_box x y then (setCell acc.1 i (rng acc.2), acc.2 + 1) else acc

/-- `fn seed_cells(mut rng: ThreadRng) -> CellGrid`: starts from the all-dead
grid and draws one Bernoulli trial for each cell satisfying `in_seed_box`. -/
def seed_cells (rng : Nat → Bool) : CellGrid :=
  ((List.range (CELL_WIDTH * CELL_HEIGHT)).foldl (seed_step rng) ((0 : CellGrid), 0)).1

/-- Number of in-box cells with index below `i`: the position in the RNG
stream of the draw used for cell `i` (when cell `i` is in the box). -/
def seed_rank (i : Nat) : Nat :=
  (List.range i).countP (fun j => in_seed_box (get_x_y j).1 (get_x_y j).2)

/-- `fn get_next_skip_index(dir: isize, i: usize, max: usize) -> usize`. -/
def get_next_skip_index (dir : Int) (i : Nat) (mx : Nat) : Nat :=
  let tv : Int := dir + (i : Int)
  if tv < 0 then 0
  else if tv.toNat > mx then mx
  else tv.toNat

/-- The mutable state of the main loop that the history claims concern:
`snapshots: Vec<CellGrid>` and the cursor `skip_index: usize`. -/
structure SimState where
  snapshots : List CellGrid
  skip_index : Nat
deriving Repr, DecidableEq

/-- The snapshot-push block shared by the update path and the `Key::Right`
handler: `snapshots.push(cell_generation_tick(snapshots.last()...))` followed
by `if snapshots.len() > SNAPSHOT_LIMIT { snapshots.remove(0); }`.
`snapshots.last().copied().expect(..)` is total here via `getLastD`; the main
loop only ever calls it with a nonempty vector (it panics otherwise). -/
def push_snapshot (rules : CellRules) (snaps : List CellGrid) : List CellGrid :=
  let snaps := snaps ++ [cell_generation_tick (snaps.getLastD 0) rules]
  if snaps.length > SNAPSHOT_LIMIT then snaps.drop 1 else snaps

/-- The per-tick update branch of the main loop (taken while playing): advance
the cursor if it lags behind, otherwise push a new generation and point the
cursor at it. -/
def update_tick (rules : CellRules) (s : SimState) : SimState :=
  if s.skip_index < s.snapshots.length - 1 then
    { s with skip_index := s.skip_index + 1 }
  else
    let snaps := push_snapshot rules s.snapshots
    { snapshots := snaps, skip_index := snaps.length - 1 }

/-- The `Key::Right` handler (runs while paused): step the cursor forward,
clamped to `SNAPSHOT_LIMIT - 1`, and push a new generation when the new cursor
is at or past the newest snapshot. -/
def key_right (rules : CellRules) (s : SimState) : SimState :=
  let skip := get_next_skip_index 1 s.skip_index (SNAPSHOT_LIMIT - 1)
  if skip ≥ s.snapshots.length ∨ skip = s.snapshots.length - 1 then
    { snapshots := push_snapshot rules s.snapshots, skip_index := skip }
  else
    { s with skip_index := skip }

/-- The `Key::Left` handler (runs while paused): step the cursor backward,
clamped to `[0, snapshots.len() - 1]`. -/
def key_left (s : SimState) : SimState :=
  { s with skip_index := get_next_skip_index (-1) s.skip_index (s.snapshots.length - 1) }

/-- The `Key::Up` handler: skip to end. -/
def key_up (s : SimState) : SimState :=
  { s with skip_index := s.snapshots.length - 1 }

/-- The `Key::Down` handler: skip to start. -/
def key_down (s : SimState) : SimState :=
  { s with skip_index := 0 }

/-- The state read by the draw closure:
`snapshots.get(skip_index).expect("NO SNAPSHOT?")`, total via `getD`. -/
def current (s : SimState) : CellGrid :=
  s.snapshots.getD s.skip_index 0

/-- The events of the main loop that touch the history state. -/
inductive SimOp where
  | tick
  | right
  | left
  | up
  | down
deriving Repr, DecidableEq

/-- Dispatch one main-loop event to its handler. -/
def sim_step (rules : CellRules) (s : SimState) : SimOp → SimState
  | SimOp.tick => update_tick rules s
  | SimOp.right => key_right rules s
  | SimOp.left => key_left s
  | SimOp.up => key_up s
  | SimOp.down => key_down s

/-- The state after startup: `snapshots.push(seed_cells(..))` with
`skip_index = 0` on a fresh vector. -/
def init_state (g : CellGrid) : SimState :=
  { snapshots := [g], skip_index := 0 }

/-- Run a sequence of main-loop events. -/
def sim_run (rules : CellRules) (s : SimState) (ops : List SimOp) : SimState :=
  ops.foldl (sim_step rules) s

/-- Build a grid from a list of live-cell coordinates (test fixture). -/
def gridOfCells (l : List (Nat × Nat)) : CellGrid :=
  l.foldl (fun g p => setCell g (get_idx p.1 p.2) true) (0 : CellGrid)

/-- The horizontal blinker: live cells at `y = 2`, `x ∈ {1, 2, 3}`. -/
def blinker_h : CellGrid := gridOfCells [(1, 2), (2, 2), (3, 2)]

/-- The vertical blinker: live cells at `x = 2`, `y ∈ {1, 2, 3}`. -/
def blinker_v : CellGrid := gridOfCells [(2, 1), (2, 2), (2, 3)]

/-- What `cell_generation_tick` actually produces from `blinker_h` under the
default Conway rule. -/
def tick_blinker_result : CellGrid := gridOfCells [(2, 1), (3, 1), (1, 2), (3, 2)]

/-! ### Basic facts about the bit-encoded grid -/

/-- The all-dead grid has every cell dead. -/
lemma getCell_zero (j : Nat) : getCell 0 j = false :=
  Nat.zero_testBit j

/-- Writing cell `i` makes cell `i` hold the written value. -/
lemma getCell_setCell_self (g : CellGrid) (i : Nat) (b : Bool) :
    getCell (setCell g i b) i = b := by
  unfold setCell
  split
  case isTrue h => exact h
  case isFalse h =>
    unfold getCell at h ⊢
    rw [Nat.testBit_xor, Nat.one_shiftLeft, Nat.testBit_two_pow_self]
    revert h
    cases Nat.testBit g i <;> cases b <;> simp

/-- Writing cell `i` leaves every other cell unchanged. -/
lemma getCell_setCell_ne (g : CellGrid) (i b : _) (j : Nat) (h : j ≠ i) :
    getCell (setCell g i b) j = getCell g j := by
  unfold setCell
  split
  case isTrue _ => rfl
  case isFalse _ =>
    unfold getCell
    rw [Nat.testBit_xor, Nat.one_shiftLeft, Nat.testBit_two_pow_of_ne (fun hh => h hh.symm)]
    cases Nat.testBit g j <;> simp

/-- A grid below `2 ^ B` has every cell with index `≥ B` dead. -/
lemma getCell_of_lt (g : CellGrid) (B j : Nat) (hg : g < 2 ^ B) (hj : B ≤ j) :
    getCell g j = false :=
  Nat.testBit_lt_two_pow (lt_of_lt_of_le hg (Nat.pow_le_pow_right (by omega) hj))

/-! ### The neighbor loop: its count versus the indices it reads -/

/-- A successful probe decomposes into in-range coordinates. -/
lemma neighbor_probe_eq_some (x y : Nat) (dx dy : Int) (j : Nat)
    (h : neighbor_probe x y dx dy = some j) :
    ∃ a b : Nat, j = b * CELL_HEIGHT + a ∧ (a : Int) = dx + x ∧ (b : Int) = dy + y ∧
      a < CELL_WIDTH ∧ b < CELL_HEIGHT := by
  simp only [neighbor_probe] at h
  split_ifs at h with hc hb
  simp only [Option.some.injEq] at h
  refine ⟨(dx + (x : Int)).toNat, (dy + (y : Int)).toNat, ?_, ?_, ?_, ?_, ?_⟩
  · simpa [get_idx] using h.symm
  · omega
  · omega
  · omega
  · omega

/-- The center offset probes nothing. -/
lemma neighbor_probe_center (x y : Nat) : neighbor_probe x y 0 0 = none := by
  simp [neighbor_probe]

/-- Each in-bounds probed index is a valid array index, and lies at most one
row before the cell's own row. -/
lemma mem_neighbor_idxs_facts (x y j : Nat) (hj : j ∈ neighbor_idxs x y) :
    j < CELL_WIDTH * CELL_HEIGHT ∧ CELL_HEIGHT * y ≤ CELL_HEIGHT + j := by
  have key : ∀ (l : List (Int × Int)) (acc : List Nat),
      (∀ k ∈ acc, k < CELL_WIDTH * CELL_HEIGHT ∧ CELL_HEIGHT * y ≤ CELL_HEIGHT + k) →
      (∀ p ∈ l, -1 ≤ p.2) →
      ∀ k ∈ l.foldl (idx_step x y) acc,
        k < CELL_WIDTH * CELL_HEIGHT ∧ CELL_HEIGHT * y ≤ CELL_HEIGHT + k := by
    intro l
    induction l with
    | nil => intro acc hacc _ k hk; exact hacc k hk
    | cons p t ih =>
      intro acc hacc hl k hk
      refine ih _ ?_ (fun q hq => hl q (List.mem_cons_of_mem _ hq)) k hk
      intro m hm
      rcases List.mem_append.mp hm with hm | hm
      · exact hacc m hm
      · rw [Option.mem_toList, Option.mem_def] at hm
        obtain ⟨a, b, hj, hax, hby, haw, hbh⟩ := neighbor_probe_eq_some x y p.1 p.2 m hm
        have hdy : -1 ≤ p.2 := hl p (List.mem_cons_self p t)
        constructor
        · subst hj
          unfold CELL_WIDTH CELL_HEIGHT at *
          omega
        · subst hj
          unfold CELL_WIDTH CELL_HEIGHT at *
          omega
  refine key moore_range [] (by simp) ?_ j hj
  intro p hp
  fin_cases hp <;> decide

/-- The live-neighbor count equals the number of live cells among the probed
indices. -/
lemma live_neighbor_count_eq_countP (cells : CellGrid) (x y : Nat) :
    live_neighbor_count cells x y = (neighbor_idxs x y).countP (fun j => getCell cells j) := by
  have key : ∀ (l : List (Int × Int)) (acc : List Nat),
      l.foldl (count_step cells x y) (acc.countP (fun j => getCell cells j)) =
        (l.foldl (idx_step x y) acc).countP (fun j => getCell cells j) := by
    intro l
    induction l with
    | nil => intro acc; rfl
    | cons p t ih =>
      intro acc
      have hstep : count_step cells x y (acc.countP (fun j => getCell cells j)) p =
          (idx_step x y acc p).countP (fun j => getCell cells j) := by
        unfold count_step idx_step
        rcases hp : neighbor_probe x y p.1 p.2 with _ | v
        · simp
        · simp only [Option.toList_some, List.countP_append, List.countP_cons,
            List.countP_nil]
          split <;> simp_all
      rw [List.foldl_cons, List.foldl_cons, hstep, ih]
  simpa [live_neighbor_count, neighbor_idxs] using key moore_range []

/-- The neighbor loop reads at most eight cells. -/
lemma neighbor_idxs_length_le (x y : Nat) : (neighbor_idxs x y).length ≤ 8 := by
  have key : ∀ (l : List (Int × Int)) (acc : List Nat),
      (l.foldl (idx_step x y) acc).length ≤
        acc.length + (l.map (fun p => ((neighbor_probe x y p.1 p.2).toList).length)).sum := by
    intro l
    induction l with
    | nil => intro acc; simp
    | cons p t ih =>
      intro acc
      rw [List.foldl_cons]
      refine le_trans (ih _) ?_
      simp [idx_step]
      omega
  refine le_trans (key moore_range []) ?_
  have h1 : ∀ dx dy : Int, ((neighbor_probe x y dx dy).toList).length ≤ 1 := by
    intro dx dy
    rcases neighbor_probe x y dx dy <;> simp
  have h0 : ((neighbor_probe x y 0 0).toList).length = 0 := by
    rw [neighbor_probe_center]; rfl
  simp only [moore_range, List.map_cons, List.map_nil, List.sum_cons, List.sum_nil,
    List.length_nil]
  have := h1 (-1) (-1); have := h1 (-1) 0; have := h1 (-1) 1; have := h1 0 (-1)
  have := h1 0 1; have := h1 1 (-1); have := h1 1 0; have := h1 1 1
  omega

/-- The count never exceeds eight. -/
lemma live_neighbor_count_le (cells : CellGrid) (x y : Nat) :
    live_neighbor_count cells x y ≤ 8 :=
  le_trans (by rw [live_neighbor_count_eq_countP]; exact List.countP_le_length _)
    (neighbor_idxs_length_le x y)

/-- If every probed cell is dead, the count is zero. -/
lemma live_neighbor_count_eq_zero (cells : CellGrid) (x y : Nat)
    (h : ∀ j ∈ neighbor_idxs x y, getCell cells j = false) :
    live_neighbor_count cells x y = 0 := by
  rw [live_neighbor_count_eq_countP]
  exact List.countP_eq_zero.mpr (by intro a ha; simp [h a ha])

/-! ### Evaluating the generation step on concrete grids

The 10000-cell loop is evaluated in slices: the rows that can change are
checked by `decide`, and the all-dead tail rows are discharged by the
inertness lemmas below (a cell write that does not change the stored value
leaves the grid unchanged). -/

/-- A fold whose every step fixes the accumulator is the identity. -/
lemma foldl_inert {α : Type} (f : α → Nat → α) (a : α) (l : List Nat)
    (h : ∀ i ∈ l, f a i = a) : l.foldl f a = a := by
  induction l with
  | nil => rfl
  | cons i t ih =>
    rw [List.foldl_cons, h i (List.mem_cons_self i t)]
    exact ih (fun j hj => h j (List.mem_cons_of_mem i hj))

/-- Splitting a counted loop into two consecutive slices. -/
lemma foldl_range'_split {α : Type} (f : α → Nat → α) (a : α) (s m n : Nat) :
    (List.range' s (m + n)).foldl f a =
      (List.range' (s + m) n).foldl f ((List.range' s m).foldl f a) := by
  rw [Nat.add_comm m n, ← List.range'_append s m n 1, List.foldl_append, Nat.one_mul]

/-- Under the Conway engine, the in-place loop body leaves the array unchanged
at a dead cell without exactly three live neighbors. -/
lemma tick_step_inert (cells : CellGrid) (i : Nat)
    (hdead : getCell cells i = false)
    (hcnt : live_neighbor_count cells (get_x_y i).1 (get_x_y i).2 ≠ 3) :
    tick_cell_step [conway_rules] cells i = cells := by
  unfold tick_cell_step
  simp only [List.foldl_cons, List.foldl_nil]
  have hval : conway_rules cells
      { x := (get_x_y i).1, y := (get_x_y i).2, alive := false,
        neighbors_alive := live_neighbor_count cells (get_x_y i).1 (get_x_y i).2 } = false := by
    simp [conway_rules, hcnt]
  simp only [hdead, hval]
  simp [setCell, hdead]

/-- Under the Conway engine, the snapshot-semantics loop body leaves the output
buffer unchanged at an output-dead cell whose source cell is dead without
exactly three live neighbors. -/
lemma spec_step_inert (cells out : CellGrid) (i : Nat)
    (hout : getCell out i = false)
    (hdead : getCell cells i = false)
    (hcnt : live_neighbor_count cells (get_x_y i).1 (get_x_y i).2 ≠ 3) :
    spec_cell_step cells [conway_rules] out i = out := by
  unfold spec_cell_step
  simp only [List.foldl_cons, List.foldl_nil]
  have hval : conway_rules cells
      { x := (get_x_y i).1, y := (get_x_y i).2, alive := false,
        neighbors_alive := live_neighbor_count cells (get_x_y i).1 (get_x_y i).2 } = false := by
    simp [conway_rules, hcnt]
  simp only [hdead, hval]
  simp [setCell, hout]

/-- A cell in a row entirely past the live region of a bounded grid has
live-neighbor count zero. -/
lemma live_neighbor_count_tail (cells : CellGrid) (B i : Nat) (hB : cells < 2 ^ B)
    (hrow : B + CELL_HEIGHT ≤ CELL_HEIGHT * (i / CELL_HEIGHT)) :
    live_neighbor_count cells (get_x_y i).1 (get_x_y i).2 = 0 := by
  apply live_neighbor_count_eq_zero
  intro j hj
  have hfacts := mem_neighbor_idxs_facts (get_x_y i).1 (get_x_y i).2 j hj
  apply getCell_of_lt cells B j hB
  have h2 : (get_x_y i).2 = i / CELL_HEIGHT := rfl
  rw [h2] at hfacts
  unfold CELL_WIDTH CELL_HEIGHT at *
  omega

/-- Tail slice of the in-place tick: beyond the live region nothing changes. -/
lemma tick_tail_inert (cells : CellGrid) (B lo n : Nat) (hB : cells < 2 ^ B)
    (hdead : B ≤ lo)
    (hrow : B + CELL_HEIGHT ≤ CELL_HEIGHT * (lo / CELL_HEIGHT)) :
    (List.range' lo n).foldl (tick_cell_step [conway_rules]) cells = cells := by
  apply foldl_inert
  intro i hi
  rw [List.mem_range'_1] at hi
  apply tick_step_inert
  · exact getCell_of_lt cells B i hB (by omega)
  · rw [live_neighbor_count_tail cells B i hB (by unfold CELL_HEIGHT at *; omega)]
    omega

/-- Tail slice of the snapshot-semantics tick: beyond the live regions of both
the source grid and the output buffer nothing changes. -/
lemma spec_tail_inert (cells out : CellGrid) (Bc Bo lo n : Nat)
    (hBc : cells < 2 ^ Bc) (hBo : out < 2 ^ Bo)
    (hdead_out : Bo ≤ lo) (hdead_in : Bc ≤ lo)
    (hrow : Bc + CELL_HEIGHT ≤ CELL_HEIGHT * (lo / CELL_HEIGHT)) :
    (List.range' lo n).foldl (spec_cell_step cells [conway_rules]) out = out := by
  apply foldl_inert
  intro i hi
  rw [List.mem_range'_1] at hi
  apply spec_step_inert
  · exact getCell_of_lt out Bo i hBo (by omega)
  · exact getCell_of_lt cells Bc i hBc (by omega)
  · rw [live_neighbor_count_tail cells Bc i hBc (by unfold CELL_HEIGHT at *; omega)]
    omega

set_option maxRecDepth 8000
set_option exponentiation.threshold 400
set_option linter.unnecessarySeqFocus false

/-- Intermediate state of the in-place tick of `blinker_h` after 200 cells. -/
def tick_mid : CellGrid := gridOfCells [(2, 1), (3, 1), (1, 2), (2, 2), (3, 2)]

lemma tick_chunk1 :
    (List.range' 0 100).foldl (tick_cell_step [conway_rules]) blinker_h = blinker_h := by
  decide

lemma tick_chunk2 :
    (List.range' 100 100).foldl (tick_cell_step [conway_rules]) blinker_h = tick_mid := by
  decide

lemma tick_chunk3 :
    (List.range' 200 100).foldl (tick_cell_step [conway_rules]) tick_mid =
      tick_blinker_result := by
  decide

lemma tick_chunk4 :
    (List.range' 300 100).foldl (tick_cell_step [conway_rules]) tick_blinker_result =
      tick_blinker_result := by
  decide

/-- What the in-place generation step actually produces from the horizontal
blinker: the four-cell pattern `{(2,1), (3,1), (1,2), (3,2)}`. -/
lemma tick_blinker_eq :
    cell_generation_tick blinker_h [conway_rules] = tick_blinker_result := by
  unfold cell_generation_tick
  rw [List.range_eq_range']
  rw [show CELL_WIDTH * CELL_HEIGHT = 100 + (100 + (100 + (100 + 9600))) from by
    norm_num [CELL_WIDTH, CELL_HEIGHT]]
  rw [foldl_range'_split, tick_chunk1, Nat.zero_add]
  rw [foldl_range'_split, tick_chunk2, show (100 : Nat) + 100 = 200 from rfl]
  rw [foldl_range'_split, tick_chunk3, show (200 : Nat) + 100 = 300 from rfl]
  rw [foldl_range'_split, tick_chunk4, show (300 : Nat) + 100 = 400 from rfl]
  exact tick_tail_inert tick_blinker_result 204 400 9600 (by decide) (by norm_num)
    (by norm_num [CELL_HEIGHT])

/-- Intermediate state of the snapshot-semantics tick of `blinker_h` after
200 cells. -/
def spec_mid2 : CellGrid := gridOfCells [(2, 1), (1, 2), (2, 2), (3, 2)]

/-- Intermediate state of the snapshot-semantics tick of `blinker_h` after
300 cells. -/
def spec_mid3 : CellGrid := gridOfCells [(2, 1), (2, 2)]

lemma spec_chunk1 :
    (List.range' 0 100).foldl (spec_cell_step blinker_h [conway_rules]) blinker_h =
      blinker_h := by
  decide

lemma spec_chunk2 :
    (List.range' 100 100).foldl (spec_cell_step blinker_h [conway_rules]) blinker_h =
      spec_mid2 := by
  decide

lemma spec_chunk3 :
    (List.range' 200 100).foldl (spec_cell_step blinker_h [conway_rules]) spec_mid2 =
      spec_mid3 := by
  decide

lemma spec_chunk4 :
    (List.range' 300 100).foldl (spec_cell_step blinker_h [conway_rules]) spec_mid3 =
      blinker_v := by
  decide

/-- The snapshot-semantics step maps the horizontal blinker to the vertical
blinker, as the spec's oscillator property describes. -/
lemma spec_blinker_eq :
    tick_snapshot_spec blinker_h [conway_rules] = blinker_v := by
  unfold tick_snapshot_spec
  rw [List.range_eq_range']
  rw [show CELL_WIDTH * CELL_HEIGHT = 100 + (100 + (100 + (100 + 9600))) from by
    norm_num [CELL_WIDTH, CELL_HEIGHT]]
  rw [foldl_range'_split, spec_chunk1, Nat.zero_add]
  rw [foldl_range'_split, spec_chunk2, show (100 : Nat) + 100 = 200 from rfl]
  rw [foldl_range'_split, spec_chunk3, show (200 : Nat) + 100 = 300 from rfl]
  rw [foldl_range'_split, spec_chunk4, show (300 : Nat) + 100 = 400 from rfl]
  exact spec_tail_inert blinker_h blinker_v 204 303 400 9600 (by decide) (by decide)
    (by norm_num) (by norm_num) (by norm_num [CELL_HEIGHT])

/-- The in-place tick of the all-dead grid is the all-dead grid. -/
lemma tick_zero_eq : cell_generation_tick 0 [conway_rules] = 0 := by
  unfold cell_generation_tick
  apply foldl_inert
  intro i _
  apply tick_step_inert
  · exact getCell_zero i
  · rw [live_neighbor_count_eq_zero 0 _ _ (fun j _ => getCell_zero j)]
    omega

/-! ### The seeder -/

/-- Index/coordinate round trip (shared helper). -/
lemma get_x_y_get_idx (x y : Nat) (hx : x < CELL_WIDTH) (_hy : y < CELL_HEIGHT) :
    get_x_y (get_idx x y) = (x, y) := by
  unfold get_x_y get_idx CELL_WIDTH CELL_HEIGHT at *
  simp only [Prod.mk.injEq]
  omega

/-- For valid coordinates, the wrapping-subtraction seeding test accepts
exactly the quarter-offset box `x ∈ (W/2 - r, W/2]`, `y ∈ (H/2 - r, H/2]`
(that is, `x, y ∈ [31, 50]`) — NOT a box centered on `(W/2, H/2)`: a
coordinate past the midpoint wraps to a huge distance and is excluded. -/
lemma in_seed_box_iff (x y : Nat) (hx : x < CELL_WIDTH) (hy : y < CELL_HEIGHT) :
    in_seed_box x y = true ↔
      (CELL_WIDTH / 2 - SEED_BOUNDING_BOX < x ∧ x ≤ CELL_WIDTH / 2 ∧
        CELL_HEIGHT / 2 - SEED_BOUNDING_BOX < y ∧ y ≤ CELL_HEIGHT / 2) := by
  unfold in_seed_box wrapping_sub USIZE_MOD SEED_BOUNDING_BOX CELL_WIDTH CELL_HEIGHT at *
  simp only [Bool.and_eq_true, decide_eq_true_eq]
  norm_num
  omega

/-- Full characterization of the seeding loop state after `n` iterations:
the draw counter equals the number of in-box cells already passed, and each
cell holds its own draw if it is in the box and below `n`, else dead. -/
lemma seed_fold_char (rng : Nat → Bool) (n : Nat) :
    ((List.range n).foldl (seed_step rng) ((0 : CellGrid), 0)).2 =
        (List.range n).countP (fun j => in_seed_box (get_x_y j).1 (get_x_y j).2) ∧
      ∀ j : Nat, getCell ((List.range n).foldl (seed_step rng) ((0 : CellGrid), 0)).1 j =
        if j < n ∧ in_seed_box (get_x_y j).1 (get_x_y j).2 = true then rng (seed_rank j)
        else false := by
  induction n with
  | zero =>
    refine ⟨rfl, ?_⟩
    intro j
    simp [getCell_zero]
  | succ n ih =>
    obtain ⟨ih1, ih2⟩ := ih
    rw [List.range_succ, List.foldl_append, List.countP_append]
    simp only [List.foldl_cons, List.foldl_nil, List.countP_cons, List.countP_nil]
    by_cases hbox : in_seed_box (get_x_y n).1 (get_x_y n).2 = true
    · have hstep : seed_step rng ((List.range n).foldl (seed_step rng) ((0 : CellGrid), 0)) n =
          (setCell ((List.range n).foldl (seed_step rng) ((0 : CellGrid), 0)).1 n
              (rng ((List.range n).foldl (seed_step rng) ((0 : CellGrid), 0)).2),
            ((List.range n).foldl (seed_step rng) ((0 : CellGrid), 0)).2 + 1) := by
        unfold seed_step
        rw [if_pos hbox]
      rw [hstep]
      constructor
      · dsimp only
        rw [ih1, if_pos hbox]
      · intro j
        dsimp only
        rcases eq_or_ne j n with hj | hj
        · subst hj
          rw [getCell_setCell_self, ih1]
          have hcond : j < j + 1 ∧ in_seed_box (get_x_y j).1 (get_x_y j).2 = true :=
            ⟨by omega, hbox⟩
          rw [if_pos hcond]
          rfl
        · rw [getCell_setCell_ne _ _ _ _ hj, ih2 j]
          rcases lt_or_ge j n with hlt | hge
          · have h1 : j < n + 1 := by omega
            simp [hlt, h1]
          · have h1 : ¬j < n := by omega
            have h2 : ¬j < n + 1 := by omega
            simp [h1, h2]
    · have hstep : seed_step rng ((List.range n).foldl (seed_step rng) ((0 : CellGrid), 0)) n =
          (List.range n).foldl (seed_step rng) ((0 : CellGrid), 0) := by
        unfold seed_step
        rw [if_neg hbox]
      rw [hstep]
      constructor
      · rw [ih1, if_neg hbox]
        omega
      · intro j
        rw [ih2 j]
        rcases eq_or_ne j n with hj | hj
        · subst hj
          have h1 : ¬(j < j ∧ in_seed_box (get_x_y j).1 (get_x_y j).2 = true) := by
            intro h
            omega
          have h2 : ¬(j < j + 1 ∧ in_seed_box (get_x_y j).1 (get_x_y j).2 = true) := by
            intro h
            exact hbox h.2
          rw [if_neg h1, if_neg h2]
        · rcases lt_or_ge j n with hlt | hge
          · have h1 : j < n + 1 := by omega
            simp [hlt, h1]
          · have h1 : ¬j < n := by omega
            have h2 : ¬j < n + 1 := by omega
            simp [h1, h2]

/-- The seeded value of cell `(x, y)`: its own Bernoulli draw inside the box,
dead outside. -/
lemma seed_cells_getCell (rng : Nat → Bool) (x y : Nat)
    (hx : x < CELL_WIDTH) (hy : y < CELL_HEIGHT) :
    getCell (seed_cells rng) (get_idx x y) =
      if in_seed_box x y then rng (seed_rank (get_idx x y)) else false := by
  unfold seed_cells
  rw [(seed_fold_char rng (CELL_WIDTH * CELL_HEIGHT)).2 (get_idx x y)]
  have hlt : get_idx x y < CELL_WIDTH * CELL_HEIGHT := by
    unfold get_idx CELL_WIDTH CELL_HEIGHT at *
    omega
  rw [get_x_y_get_idx x y hx hy]
  simp [hlt]

/-! ### The snapshot history and its navigation -/

/-- Stepping forward computes `min (i + 1) mx`. -/
lemma get_next_skip_index_right (i mx : Nat) :
    get_next_skip_index 1 i mx = min (i + 1) mx := by
  simp only [get_next_skip_index]
  split_ifs <;> omega

/-- Stepping backward computes `min (i - 1) mx` (clamped at zero by the
`tv < 0` test). -/
lemma get_next_skip_index_left (i mx : Nat) :
    get_next_skip_index (-1) i mx = min (i - 1) mx := by
  simp only [get_next_skip_index]
  split_ifs <;> omega

/-- Length of the history after a push: grows by one until the limit, then
stays at the limit. -/
lemma push_snapshot_length (rules : CellRules) (l : List CellGrid) :
    (push_snapshot rules l).length =
      if l.length + 1 > SNAPSHOT_LIMIT then l.length else l.length + 1 := by
  simp only [push_snapshot, List.length_append, List.length_cons, List.length_nil,
    Nat.zero_add]
  split_ifs with h1 <;> simp

/-- Below the limit a push is a plain append of the next generation. -/
lemma push_snapshot_of_lt (rules : CellRules) (l : List CellGrid)
    (h : l.length < SNAPSHOT_LIMIT) :
    push_snapshot rules l = l ++ [cell_generation_tick (l.getLastD 0) rules] := by
  simp only [push_snapshot, List.length_append, List.length_cons, List.length_nil,
    Nat.zero_add]
  split_ifs with hc
  · exact absurd hc (by omega)
  · rfl

/-- At the limit a push appends the next generation and evicts exactly
index 0, keeping the rest in order. -/
lemma push_snapshot_of_full (rules : CellRules) (l : List CellGrid)
    (h : l.length = SNAPSHOT_LIMIT) :
    push_snapshot rules l = l.drop 1 ++ [cell_generation_tick (l.getLastD 0) rules] := by
  simp only [push_snapshot, List.length_append, List.length_cons, List.length_nil,
    Nat.zero_add]
  split_ifs with hc
  · rw [List.drop_append_of_le_length (by unfold SNAPSHOT_LIMIT at h; omega)]
  · exact absurd (by omega : l.length + 1 > SNAPSHOT_LIMIT) hc

/-- The standing invariant of the history state: at least one snapshot, at
most `SNAPSHOT_LIMIT`, cursor within bounds. -/
def history_ok (s : SimState) : Prop :=
  1 ≤ s.snapshots.length ∧ s.snapshots.length ≤ SNAPSHOT_LIMIT ∧
    s.skip_index < s.snapshots.length

/-- Every main-loop event preserves the history invariant. -/
lemma sim_step_preserves (rules : CellRules) (s : SimState) (op : SimOp)
    (h : history_ok s) : history_ok (sim_step rules s op) := by
  obtain ⟨h1, h2, h3⟩ := h
  cases op
  case tick =>
    show history_ok (update_tick rules s)
    simp only [update_tick, history_ok]
    split_ifs with hc
    · exact ⟨h1, h2, by dsimp only; omega⟩
    · simp only [push_snapshot_length]
      split_ifs with hl
      · exact ⟨by omega, by omega, by omega⟩
      · exact ⟨by omega, by omega, by omega⟩
  case right =>
    show history_ok (key_right rules s)
    simp only [key_right, history_ok, get_next_skip_index_right]
    split_ifs with hc
    · simp only [push_snapshot_length]
      split_ifs with hl
      · exact ⟨by omega, by omega, by omega⟩
      · exact ⟨by omega, by omega, by omega⟩
    · exact ⟨h1, h2, by dsimp only; omega⟩
  case left =>
    show history_ok (key_left s)
    simp only [key_left, history_ok, get_next_skip_index_left]
    exact ⟨h1, h2, by omega⟩
  case up =>
    show history_ok (key_up s)
    simp only [key_up, history_ok]
    exact ⟨h1, h2, by omega⟩
  case down =>
    show history_ok (key_down s)
    simp only [key_down, history_ok]
    exact ⟨h1, h2, by omega⟩

/-- The invariant holds after any event sequence from an invariant state. -/
lemma sim_run_preserves (rules : CellRules) (ops : List SimOp) :
    ∀ s : SimState, history_ok s → history_ok (sim_run rules s ops) := by
  induction ops with
  | nil => intro s h; exact h
  | cons op t ih =>
    intro s h
    exact ih (sim_step rules s op) (sim_step_preserves rules s op h)

/-- The startup state satisfies the invariant. -/
lemma init_state_ok (g : CellGrid) : history_ok (init_state g) := by
  unfold history_ok init_state
  refine ⟨by simp, by simp [SNAPSHOT_LIMIT], by simp⟩

/-- `Key::Left` only decrements the clamped cursor. -/
lemma key_left_eq (s : SimState) (h : s.skip_index < s.snapshots.length) :
    key_left s = { s with skip_index := s.skip_index - 1 } := by
  unfold key_left
  rw [get_next_skip_index_left]
  have : min (s.skip_index - 1) (s.snapshots.length - 1) = s.skip_index - 1 := by omega
  rw [this]

/-- `Key::Right` from a cursor that stays strictly behind the newest snapshot
after the move: pure cursor increment, no push. -/
lemma key_right_no_push (rules : CellRules) (s : SimState)
    (h1 : s.skip_index + 1 < s.snapshots.length - 1)
    (h2 : s.snapshots.length ≤ SNAPSHOT_LIMIT) :
    key_right rules s = { s with skip_index := s.skip_index + 1 } := by
  unfold key_right
  rw [get_next_skip_index_right]
  have hmin : min (s.skip_index + 1) (SNAPSHOT_LIMIT - 1) = s.skip_index + 1 := by omega
  rw [hmin, if_neg (by omega)]

/-- `Key::Right` landing the cursor exactly on the newest snapshot: the cursor
increments AND a new generation is pushed. -/
lemma key_right_land (rules : CellRules) (s : SimState)
    (h1 : s.skip_index + 1 = s.snapshots.length - 1)
    (h2 : s.snapshots.length ≤ SNAPSHOT_LIMIT) :
    key_right rules s =
      { snapshots := push_snapshot rules s.snapshots, skip_index := s.skip_index + 1 } := by
  unfold key_right
  rw [get_next_skip_index_right]
  have hmin : min (s.skip_index + 1) (SNAPSHOT_LIMIT - 1) = s.skip_index + 1 := by omega
  rw [hmin, if_pos (by omega)]

/-- Replacing the cursor by its own value is the identity. -/
lemma simstate_eta (s : SimState) (k : Nat) (h : s.skip_index = k) :
    { s with skip_index := k } = s := by
  cases s
  simp_all

/-- Iterated `Key::Left` from a valid cursor subtracts (with clamping absorbed
by the hypothesis). -/
lemma key_left_iter (n : Nat) : ∀ s : SimState, s.skip_index < s.snapshots.length →
    key_left^[n] s = { s with skip_index := s.skip_index - n } := by
  induction n with
  | zero =>
    intro s h
    rw [Function.iterate_zero_apply]
    exact (simstate_eta s (s.skip_index - 0) (by omega)).symm
  | succ n ih =>
    intro s h
    rw [Function.iterate_succ_apply, key_left_eq s h, ih _ (by simp; omega)]
    simp only [SimState.mk.injEq]
    exact ⟨trivial, by omega⟩

/-- Iterated `Key::Right` that stays strictly behind the newest snapshot:
pure cursor advance, history untouched. -/
lemma key_right_iter_behind (rules : CellRules) (m : Nat) :
    ∀ s : SimState, s.skip_index + m < s.snapshots.length - 1 →
      s.snapshots.length ≤ SNAPSHOT_LIMIT →
      (fun t => key_right rules t)^[m] s = { s with skip_index := s.skip_index + m } := by
  induction m with
  | zero =>
    intro s h1 h2
    rw [Function.iterate_zero_apply]
    exact (simstate_eta s (s.skip_index + 0) (by omega)).symm
  | succ m ih =>
    intro s h1 h2
    rw [Function.iterate_succ_apply]
    have hstep : key_right rules s = { s with skip_index := s.skip_index + 1 } :=
      key_right_no_push rules s (by omega) h2
    rw [hstep, ih _ (by simp; omega) (by simpa using h2)]
    simp only [SimState.mk.injEq]
    exact ⟨trivial, by omega⟩

/-- "Step backward then forward the same number of times" (§4.4 replay). -/
def replay (rules : CellRules) (n : Nat) (s : SimState) : SimState :=
  (fun t => key_right rules t)^[n] (key_left^[n] s)

/-! ### Claim theorems -/

/-- Claim C1: the spec demands simultaneous-update semantics — every cell's
next state computed against the pre-step snapshot.  The code instead writes
each result back into the array it keeps reading, so later cells see already
updated neighbors: on the horizontal blinker the in-place step differs from
the snapshot-semantics step, e.g. at cell (3,1), which the code births (it
sees the freshly updated (2,1)) while the snapshot semantics leaves it dead. -/
theorem tick_not_simultaneous :
    cell_generation_tick blinker_h [conway_rules] ≠ tick_snapshot_spec blinker_h [conway_rules] ∧
      getCell (cell_generation_tick blinker_h [conway_rules]) (get_idx 3 1) = true ∧
      getCell (tick_snapshot_spec blinker_h [conway_rules]) (get_idx 3 1) = false := by
  rw [tick_blinker_eq, spec_blinker_eq]
  refine ⟨by decide, by decide, by decide⟩

/-- Claim C4: the claimed blinker oscillation fails on the code — one in-place
step of the horizontal blinker yields the four-cell pattern
`{(2,1), (3,1), (1,2), (3,2)}`, not the vertical three-cell line. -/
theorem blinker_step_diverges :
    cell_generation_tick blinker_h [conway_rules] = tick_blinker_result ∧
      tick_blinker_result ≠ blinker_v :=
  ⟨tick_blinker_eq, by decide⟩

/-- Claim C7: the default Conway rule implements the stated truth table:
live cells die under 2 or over 3 neighbors and survive on 2 or 3; dead cells
are born exactly on 3 neighbors. -/
theorem conway_rules_truth_table (g : CellGrid) (cell : CellState) :
    (cell.alive = true → cell.neighbors_alive < 2 → conway_rules g cell = false) ∧
      (cell.alive = true → 3 < cell.neighbors_alive → conway_rules g cell = false) ∧
      (cell.alive = true → (cell.neighbors_alive = 2 ∨ cell.neighbors_alive = 3) →
        conway_rules g cell = true) ∧
      (cell.alive = false → cell.neighbors_alive = 3 → conway_rules g cell = true) ∧
      (cell.alive = false → cell.neighbors_alive ≠ 3 → conway_rules g cell = false) := by
  obtain ⟨x, y, alive, n⟩ := cell
  simp only [conway_rules]
  cases alive <;>
    refine ⟨?_, ?_, ?_, ?_, ?_⟩ <;>
    intro h1 h2 <;>
    simp_all <;>
    omega

/-- Witness for C7: all five rows of the truth table at concrete inputs. -/
theorem conway_rules_truth_table_witness :
    conway_rules 0 ⟨0, 0, true, 1⟩ = false ∧ conway_rules 0 ⟨0, 0, true, 4⟩ = false ∧
      conway_rules 0 ⟨0, 0, true, 2⟩ = true ∧ conway_rules 0 ⟨0, 0, false, 3⟩ = true ∧
      conway_rules 0 ⟨0, 0, false, 2⟩ = false :=
  ⟨(conway_rules_truth_table 0 ⟨0, 0, true, 1⟩).1 rfl (by decide),
    (conway_rules_truth_table 0 ⟨0, 0, true, 4⟩).2.1 rfl (by decide),
    (conway_rules_truth_table 0 ⟨0, 0, true, 2⟩).2.2.1 rfl (Or.inl rfl),
    (conway_rules_truth_table 0 ⟨0, 0, false, 3⟩).2.2.2.1 rfl rfl,
    (conway_rules_truth_table 0 ⟨0, 0, false, 2⟩).2.2.2.2 rfl (by decide)⟩

/-- Claim C10: the default Conway rule ignores its grid argument — its output
depends only on the observation. -/
theorem conway_rules_ignores_grid (g1 g2 : CellGrid) (cell : CellState) :
    conway_rules g1 cell = conway_rules g2 cell := rfl

/-- Claim C9: the addressing formulas are mutually inverse on the valid
range: `get_idx x y < W·H`, `get_x_y (get_idx x y) = (x, y)`, and
`get_idx ∘ get_x_y` is the identity on valid indices. -/
theorem grid_addressing_roundtrip (x y : Nat) (hx : x < CELL_WIDTH) (hy : y < CELL_HEIGHT) :
    get_idx x y < CELL_WIDTH * CELL_HEIGHT ∧ get_x_y (get_idx x y) = (x, y) ∧
      (∀ i, i < CELL_WIDTH * CELL_HEIGHT → get_idx (get_x_y i).1 (get_x_y i).2 = i) := by
  refine ⟨?_, get_x_y_get_idx x y hx hy, ?_⟩
  · unfold get_idx CELL_WIDTH CELL_HEIGHT at *
    omega
  · intro i hi
    unfold get_idx get_x_y CELL_WIDTH CELL_HEIGHT at *
    dsimp only
    omega

/-- Witness for C9 at `(x, y) = (3, 2)`. -/
theorem grid_addressing_roundtrip_witness :
    get_idx 3 2 < CELL_WIDTH * CELL_HEIGHT ∧ get_x_y (get_idx 3 2) = (3, 2) ∧
      (∀ i, i < CELL_WIDTH * CELL_HEIGHT → get_idx (get_x_y i).1 (get_x_y i).2 = i) :=
  grid_addressing_roundtrip 3 2 (by decide) (by decide)

/-- Claim C6: neighbor counting is bounded and in-bounds — the count is at
most 8 and equals the number of live cells among the probed indices, every
probed index is a valid array index (no wraparound), and the corner `(0,0)`
probes exactly its three in-bounds candidates. -/
theorem neighbor_count_safe (cells : CellGrid) (x y : Nat)
    (_hx : x < CELL_WIDTH) (_hy : y < CELL_HEIGHT) :
    live_neighbor_count cells x y ≤ 8 ∧
      live_neighbor_count cells x y = (neighbor_idxs x y).countP (fun j => getCell cells j) ∧
      (∀ j ∈ neighbor_idxs x y, j < CELL_WIDTH * CELL_HEIGHT) ∧
      neighbor_idxs 0 0 = [get_idx 0 1, get_idx 1 0, get_idx 1 1] :=
  ⟨live_neighbor_count_le cells x y, live_neighbor_count_eq_countP cells x y,
    fun j hj => (mem_neighbor_idxs_facts x y j hj).1, by decide⟩

/-- Witness for C6 on the blinker grid at the corner `(0, 0)`. -/
theorem neighbor_count_safe_witness :
    live_neighbor_count blinker_h 0 0 ≤ 8 ∧
      live_neighbor_count blinker_h 0 0 =
        (neighbor_idxs 0 0).countP (fun j => getCell blinker_h j) ∧
      (∀ j ∈ neighbor_idxs 0 0, j < CELL_WIDTH * CELL_HEIGHT) ∧
      neighbor_idxs 0 0 = [get_idx 0 1, get_idx 1 0, get_idx 1 1] :=
  neighbor_count_safe blinker_h 0 0 (by decide) (by decide)

/-- Claim C3 counterexample: cell `(60, 40)` lies inside the claimed centered
box (`|W/2 − 60| = 10 < 20` and `|H/2 − 40| = 10 < 20`), yet even under the
all-true draw stream (spawn probability 1) the seeded grid leaves it dead,
because the code's wrapping subtraction `W/2 − x` rejects every `x > W/2`. -/
theorem seed_box_claim_counterexample :
    (((CELL_WIDTH : Int) / 2 - 60).natAbs < SEED_BOUNDING_BOX ∧
        ((CELL_HEIGHT : Int) / 2 - 40).natAbs < SEED_BOUNDING_BOX) ∧
      getCell (seed_cells (fun _ => true)) (get_idx 60 40) = false := by
  refine ⟨by decide, ?_⟩
  rw [seed_cells_getCell (fun _ => true) 60 40 (by decide) (by decide)]
  decide

/-- Claim C3 amended: a cell `(x, y)` receives a Bernoulli draw if and only if
`W/2 − x < r` and `H/2 − y < r` in wrapping `usize` arithmetic, i.e. exactly
when `x ∈ (W/2 − r, W/2]` and `y ∈ (H/2 − r, H/2]` (`x, y ∈ [31, 50]`); every
other cell is always dead regardless of the draw stream, and an in-box cell
holds precisely its own draw (so the all-true stream, spawn probability 1,
makes exactly the in-box cells alive). -/
theorem seed_cells_characterization (rng : Nat → Bool) (x y : Nat)
    (hx : x < CELL_WIDTH) (hy : y < CELL_HEIGHT) :
    getCell (seed_cells rng) (get_idx x y) =
        (if in_seed_box x y then rng (seed_rank (get_idx x y)) else false) ∧
      (in_seed_box x y = true ↔
        (CELL_WIDTH / 2 - SEED_BOUNDING_BOX < x ∧ x ≤ CELL_WIDTH / 2 ∧
          CELL_HEIGHT / 2 - SEED_BOUNDING_BOX < y ∧ y ≤ CELL_HEIGHT / 2)) ∧
      (in_seed_box x y = false → getCell (seed_cells rng) (get_idx x y) = false) := by
  refine ⟨seed_cells_getCell rng x y hx hy, in_seed_box_iff x y hx hy, ?_⟩
  intro hfalse
  rw [seed_cells_getCell rng x y hx hy, hfalse]
  rfl

/-- Witness for the amended C3 at `(40, 40)` under the all-true stream. -/
theorem seed_cells_characterization_witness :
    getCell (seed_cells (fun _ => true)) (get_idx 40 40) =
        (if in_seed_box 40 40 then (fun _ => true) (seed_rank (get_idx 40 40)) else false) ∧
      (in_seed_box 40 40 = true ↔
        (CELL_WIDTH / 2 - SEED_BOUNDING_BOX < 40 ∧ 40 ≤ CELL_WIDTH / 2 ∧
          CELL_HEIGHT / 2 - SEED_BOUNDING_BOX < 40 ∧ 40 ≤ CELL_HEIGHT / 2)) ∧
      (in_seed_box 40 40 = false →
        getCell (seed_cells (fun _ => true)) (get_idx 40 40) = false) :=
  seed_cells_characterization (fun _ => true) 40 40 (by decide) (by decide)

/-- Claim C2 counterexample: in the state with snapshots `[g, g]` and cursor 0
— strictly behind the newest snapshot at index 1 — `Key::Right` does not just
move the cursor: it also simulates and appends a new snapshot, because the
move lands the cursor on the newest index. -/
theorem step_forward_reviewing_pushes :
    (0 : Nat) < ([0, 0] : List CellGrid).length - 1 ∧
      (key_right [conway_rules] ⟨[0, 0], 0⟩).snapshots ≠ [0, 0] := by
  refine ⟨by decide, ?_⟩
  rw [key_right_land [conway_rules] ⟨[0, 0], 0⟩ (by decide) (by decide)]
  dsimp only
  rw [push_snapshot_of_lt [conway_rules] [0, 0] (by decide)]
  have hlast : ([0, 0] : List CellGrid).getLastD 0 = 0 := rfl
  rw [hlast, tick_zero_eq]
  decide

/-- Claim C2 amended: while the cursor is strictly behind the newest snapshot,
`Key::Right` moves it +1 and appends nothing — unless the move lands exactly
on the newest snapshot, in which case one new generation is simulated and
appended.  Hence stepping backward then forward the same number of times
(below capacity) restores the cursor and `current()` yields the identical
snapshot; the history is unchanged when the walk stays strictly behind the
frontier, but returning to the frontier appends one new snapshot. -/
theorem step_forward_replay_amended (rules : CellRules) (s : SimState) (n : Nat)
    (hn : n ≤ s.skip_index) (hcur : s.skip_index < s.snapshots.length)
    (hcap : s.snapshots.length < SNAPSHOT_LIMIT) :
    ((replay rules n s).skip_index = s.skip_index ∧
        current (replay rules n s) = current s ∧
        (s.skip_index < s.snapshots.length - 1 → replay rules n s = s) ∧
        (0 < n → s.skip_index = s.snapshots.length - 1 →
          (replay rules n s).snapshots =
            s.snapshots ++ [cell_generation_tick (s.snapshots.getLastD 0) rules])) ∧
      (∀ t : SimState, t.skip_index + 1 < t.snapshots.length - 1 →
        t.snapshots.length ≤ SNAPSHOT_LIMIT →
        key_right rules t = { t with skip_index := t.skip_index + 1 }) ∧
      (∀ t : SimState, t.skip_index + 1 = t.snapshots.length - 1 →
        t.snapshots.length ≤ SNAPSHOT_LIMIT →
        (key_right rules t).skip_index = t.skip_index + 1 ∧
          (key_right rules t).snapshots = push_snapshot rules t.snapshots) := by
  refine ⟨?_, ?_, ?_⟩
  · unfold replay
    have hback : key_left^[n] s = { s with skip_index := s.skip_index - n } :=
      key_left_iter n s hcur
    rcases Nat.lt_or_ge s.skip_index (s.snapshots.length - 1) with hlt | hge
    · -- strictly behind the frontier: the walk never lands on the newest index
      have hfwd : (fun t => key_right rules t)^[n] { s with skip_index := s.skip_index - n } =
          { s with skip_index := s.skip_index - n + n } :=
        key_right_iter_behind rules n { s with skip_index := s.skip_index - n }
          (show s.skip_index - n + n < s.snapshots.length - 1 by omega)
          (show s.snapshots.length ≤ SNAPSHOT_LIMIT by omega)
      rw [hback, hfwd, simstate_eta s (s.skip_index - n + n) (by omega)]
      exact ⟨rfl, rfl, fun _ => rfl, fun hn0 hfr => absurd hfr (by omega)⟩
    · -- at the frontier
      have heq : s.skip_index = s.snapshots.length - 1 := by omega
      cases n with
      | zero =>
        simp [Function.iterate_zero_apply]
      | succ m =>
        have hskip1 : 1 ≤ s.skip_index := by omega
        rw [hback, Function.iterate_succ_apply']
        have hmid : (fun t => key_right rules t)^[m]
            { s with skip_index := s.skip_index - (m + 1) } =
            { s with skip_index := s.skip_index - 1 } := by
          rw [key_right_iter_behind rules m { s with skip_index := s.skip_index - (m + 1) }
            (show s.skip_index - (m + 1) + m < s.snapshots.length - 1 by omega)
            (show s.snapshots.length ≤ SNAPSHOT_LIMIT by omega)]
          simp only [SimState.mk.injEq]
          exact ⟨trivial, by omega⟩
        rw [hmid]
        have hland : key_right rules { s with skip_index := s.skip_index - 1 } =
            { snapshots := push_snapshot rules s.snapshots,
              skip_index := s.skip_index - 1 + 1 } :=
          key_right_land rules { s with skip_index := s.skip_index - 1 }
            (show s.skip_index - 1 + 1 = s.snapshots.length - 1 by omega)
            (show s.snapshots.length ≤ SNAPSHOT_LIMIT by omega)
        rw [hland, push_snapshot_of_lt rules s.snapshots (by omega)]
        have hs1 : s.skip_index - 1 + 1 = s.skip_index := by omega
        rw [hs1]
        refine ⟨rfl, ?_, fun h => absurd h (by omega), fun _ _ => rfl⟩
        show (s.snapshots ++ [cell_generation_tick (s.snapshots.getLastD 0) rules]).getD
            s.skip_index 0 = s.snapshots.getD s.skip_index 0
        exact List.getD_append _ _ _ _ hcur
  · intro t h1 h2
    exact key_right_no_push rules t h1 h2
  · intro t h1 h2
    rw [key_right_land rules t h1 h2]
    exact ⟨rfl, rfl⟩

/-- Witness for the amended C2: history `[g, g]`, cursor at the newest index,
one step back then one step forward restores the cursor and the current
snapshot while appending one new generation. -/
theorem step_forward_replay_amended_witness :
    (replay [conway_rules] 1 ⟨[0, 0], 1⟩).skip_index = 1 ∧
      current (replay [conway_rules] 1 ⟨[0, 0], 1⟩) = current ⟨[0, 0], 1⟩ ∧
      (replay [conway_rules] 1 ⟨[0, 0], 1⟩).snapshots =
        [0, 0] ++ [cell_generation_tick 0 [conway_rules]] := by
  have h := (step_forward_replay_amended [conway_rules] ⟨[0, 0], 1⟩ 1 (by decide) (by decide)
    (by decide)).1
  exact ⟨h.1, h.2.1, h.2.2.2 (by decide) (by decide)⟩

/-- Claim C5: from the initial one-snapshot state, any sequence of main-loop
events keeps the history length in `[1, SNAPSHOT_LIMIT]` and the cursor in
`[0, length − 1]` (so the current snapshot always exists), and a push at the
limit evicts exactly index 0, preserving the order of the rest. -/
theorem history_buffer_invariant (rules : CellRules) (g : CellGrid) (ops : List SimOp) :
    (1 ≤ (sim_run rules (init_state g) ops).snapshots.length ∧
        (sim_run rules (init_state g) ops).snapshots.length ≤ SNAPSHOT_LIMIT ∧
        (sim_run rules (init_state g) ops).skip_index <
          (sim_run rules (init_state g) ops).snapshots.length) ∧
      ((sim_run rules (init_state g) ops).snapshots[(sim_run rules
        (init_state g) ops).skip_index]?).isSome ∧
      (∀ l : List CellGrid, l.length = SNAPSHOT_LIMIT →
        push_snapshot rules l = l.drop 1 ++ [cell_generation_tick (l.getLastD 0) rules] ∧
          (push_snapshot rules l).length = SNAPSHOT_LIMIT) := by
  obtain ⟨h1, h2, h3⟩ := sim_run_preserves rules ops (init_state g) (init_state_ok g)
  refine ⟨⟨h1, h2, h3⟩, ?_, ?_⟩
  · rw [List.getElem?_eq_getElem h3]
    rfl
  · intro l hl
    refine ⟨push_snapshot_of_full rules l hl, ?_⟩
    rw [push_snapshot_length]
    split_ifs with h
    · omega
    · omega

/-- Witness for C5: the invariant evaluated after a right-left event pair from
the all-dead seed. -/
theorem history_buffer_invariant_witness :
    (1 ≤ (sim_run [conway_rules] (init_state 0) [SimOp.right, SimOp.left]).snapshots.length ∧
        (sim_run [conway_rules] (init_state 0)
          [SimOp.right, SimOp.left]).snapshots.length ≤ SNAPSHOT_LIMIT ∧
        (sim_run [conway_rules] (init_state 0) [SimOp.right, SimOp.left]).skip_index <
          (sim_run [conway_rules] (init_state 0) [SimOp.right, SimOp.left]).snapshots.length) ∧
      ((sim_run [conway_rules] (init_state 0) [SimOp.right, SimOp.left]).snapshots[(sim_run
        [conway_rules] (init_state 0) [SimOp.right, SimOp.left]).skip_index]?).isSome ∧
      (∀ l : List CellGrid, l.length = SNAPSHOT_LIMIT →
        push_snapshot [conway_rules] l =
            l.drop 1 ++ [cell_generation_tick (l.getLastD 0) [conway_rules]] ∧
          (push_snapshot [conway_rules] l).length = SNAPSHOT_LIMIT) :=
  history_buffer_invariant [conway_rules] 0 [SimOp.right, SimOp.left]

/-- Claim C8: `Key::Left` moves the cursor to `max(cursor − 1, 0)` (natural
subtraction), never touches the snapshot list, and from cursor 0 is a silent
no-op. -/
theorem step_backward_clamped (s : SimState) (h : s.skip_index < s.snapshots.length) :
    key_left s = { s with skip_index := s.skip_index - 1 } ∧
      (key_left s).snapshots = s.snapshots ∧
      (s.skip_index = 0 → key_left s = s) := by
  refine ⟨key_left_eq s h, by rw [key_left_eq s h], ?_⟩
  intro h0
  rw [key_left_eq s h]
  exact simstate_eta s (s.skip_index - 1) (by omega)

/-- Witness for C8 on the one-snapshot state with cursor 0. -/
theorem step_backward_clamped_witness :
    key_left ⟨[0], 0⟩ = { (⟨[0], 0⟩ : SimState) with skip_index := 0 - 1 } ∧
      (key_left ⟨[0], 0⟩).snapshots = [0] ∧
      ((0 : Nat) = 0 → key_left ⟨[0], 0⟩ = ⟨[0], 0⟩) :=
  step_backward_clamped ⟨[0], 0⟩ (by decide)

end Cellularust
